import Mathlib

/-!
# Shallow embedding of the ferros capability/VSpace core

This file embeds, in Lean, the parts of the `ferros` Rust crate that the
claims under scrutiny talk about:

* `src/vspace.rs` — the `VSpace` address-space manager (`map_given_page`,
  `map_region` / `map_region_internal`, `map_shared_region`, `unmap_region`,
  `skip_pages`) and the recursive paging chain (`PagingRec::map_item`);
* `src/fancy.rs` — the capability/slot algebra (`CNode::consume_slot`,
  `reserve_region`, `reservation_iter`, `Capability::<Untyped<_>>::split`,
  `wrap_untyped`);
* `src/micro_alloc.rs` — the boot-time untyped allocator
  (`Allocator::find_block` / `get_untyped`).

Type-level naturals of the Rust source (`FreeSlots`, `BitSize`, `SizeBits`,
`Count`) become ordinary `Nat` fields/arguments; type-level tags
(`shared_status::Shared/Exclusive`) become `Bool` fields.  Kernel calls are
represented by explicit outcome arguments (a status word, or an outcome
oracle indexed by call position), and by explicit `KernelCall` traces where a
claim speaks about how many kernel calls are issued.  Machine integers are
`Nat` with explicit bounds checks where the source uses `checked_mul` /
`checked_add` on `usize` (aarch64: 64-bit).
-/

namespace Ferros

/-- `PageBits = U12` from `src/arch/aarch64/mod.rs`. -/
def PageBits : Nat := 12

/-- `PageBytes = op!(U1 << U12)` from `src/arch/aarch64/mod.rs`. -/
def PageBytes : Nat := 1 <<< 12

/-- aarch64 `usize::MAX`, the bound enforced by `checked_mul`/`checked_add`. -/
def USIZE_MAX : Nat := 2 ^ 64 - 1

/-- `MAX_UNTYPED_SIZE_BITS` from `src/micro_alloc.rs`. -/
def MAX_UNTYPED_SIZE_BITS : Nat := 32

/-- `MIN_UNTYPED_SIZE_BITS` from `src/micro_alloc.rs`. -/
def MIN_UNTYPED_SIZE_BITS : Nat := 4

/-- `SeL4Error` is carried around as a raw kernel status word; the Rust
enum's distinctions do not matter for the claims, only identity. -/
abbrev SeL4Err := Nat

/-- `MappingError` from `src/vspace.rs` (lines 73–91). -/
inductive MappingError where
  | Overflow
  | AddrNotPageAligned
  | PageMapFailure (e : SeL4Err)
  | IntermediateLayerFailure (e : SeL4Err)
  | RetypingError
deriving Repr, DecidableEq

/-- `VSpaceError` from `src/vspace.rs` (lines 95–106). -/
inductive VSpaceError where
  | MappingError (e : MappingError)
  | RetypeRegion
  | SeL4Error (e : SeL4Err)
  | InsufficientCNodeSlots
  | ExceededAvailableAddressSpace
deriving Repr, DecidableEq

/-! ## The recursive paging chain: `PagingRec::map_item`

`PagingRec::map_item` (`src/vspace.rs` lines 194–219) calls its own layer,
and on `MappingError::Overflow` retypes one unit of untyped into the
next-outer layer's granule (`ut.retype::<P::Item>`), recurses into the outer
layer at the same address, then retries its own layer once.  We embed the
two collaborator calls as oracles: `layer n addr` is the outcome of the
`n`-th call to `self.layer.map_item` at address `addr`, `retype` the outcome
of `ut.retype::<P::Item>`, and `next addr` the outcome of
`self.next.map_item` at `addr`.  The returned trace records each
collaborator invocation in order. -/

/-- One collaborator invocation made by `PagingRec::map_item`. -/
inductive PagingAction where
  /-- A call to `self.layer.map_item` at the given address. -/
  | layerCall (addr : Nat)
  /-- A call to `ut.retype::<P::Item>` — retyping one unit of untyped memory
  into the next-outer layer's granule type. -/
  | retypeOuterGranule
  /-- A call to `self.next.map_item` at the given address. -/
  | nextCall (addr : Nat)
deriving Repr, DecidableEq

/-- The collaborators of one `PagingRec` node, as outcome oracles. -/
structure PagingOracle where
  /-- Outcome of the `n`-th call to `self.layer.map_item` at address `addr`. -/
  layer : Nat → Nat → Except MappingError Unit
  /-- Outcome of `ut.retype::<P::Item>` (`Err` = any retype error). -/
  retype : Except Unit Unit
  /-- Outcome of `self.next.map_item` at address `addr`. -/
  next : Nat → Except MappingError Unit

/-- `PagingRec::map_item` from `src/vspace.rs` lines 194–219, returning the
result together with the trace of collaborator calls it made. -/
def pagingRec_map_item (o : PagingOracle) (addr : Nat) :
    Except MappingError Unit × List PagingAction :=
  match o.layer 0 addr with
  | .error .Overflow =>
    match o.retype with
    | .error _ =>
      (.error .RetypingError, [.layerCall addr, .retypeOuterGranule])
    | .ok _ =>
      match o.next addr with
      | .error e =>
        (.error e, [.layerCall addr, .retypeOuterGranule, .nextCall addr])
      | .ok _ =>
        (o.layer 1 addr,
          [.layerCall addr, .retypeOuterGranule, .nextCall addr,
            .layerCall addr])
  | res => (res, [.layerCall addr])

/-! ## VSpace state and page mapping -/

/-- A page mapping recorded in the (modelled) kernel: which page capability
is mapped, at which virtual address, under which asid. -/
structure PageMapping where
  cptr : Nat
  vaddr : Nat
  asid : Nat
deriving Repr, DecidableEq

/-- The mutable parts of `VSpace` (`src/vspace.rs` lines 374–392) the claims
depend on: the address cursor `next_addr` and the assigned `asid`, plus a
ledger of the pages currently mapped (the observable effect of the kernel
map/unmap calls). -/
structure VSpaceState where
  next_addr : Nat
  asid : Nat
  mapped : List PageMapping
deriving Repr, DecidableEq

/-- A `LocalCap<Page<page_state::Mapped>>` as returned by `map_given_page`:
capability pointer plus the `Mapped { vaddr, asid }` payload. -/
structure MappedPageCap where
  cptr : Nat
  vaddr : Nat
  asid : Nat
deriving Repr, DecidableEq

/-- `VSpace::map_given_page` from `src/vspace.rs` lines 426–458.
`outcome` is the result of `self.layers.map_item(&page, self.next_addr, …)`.
On success the source records the pre-call cursor as the page's `vaddr` and
then advances the cursor with `self.next_addr += PageBits::USIZE`
(literally `PageBits`, i.e. 12 — not `PageBytes`). -/
def map_given_page (s : VSpaceState) (pageCptr : Nat)
    (outcome : Except MappingError Unit) :
    Except VSpaceError (MappedPageCap × VSpaceState) :=
  match outcome with
  | .error (.PageMapFailure e) => .error (.SeL4Error e)
  | .error (.IntermediateLayerFailure e) => .error (.SeL4Error e)
  | .error e => .error (.MappingError e)
  | .ok _ =>
    let vaddr := s.next_addr
    .ok (⟨pageCptr, vaddr, s.asid⟩,
      { s with
        next_addr := s.next_addr + PageBits
        mapped := s.mapped ++ [⟨pageCptr, vaddr, s.asid⟩] })

/-- `VSpace::skip_pages` from `src/vspace.rs` lines 703–713:
`PageBytes::USIZE.checked_mul(count).and_then(|b| next_addr.checked_add(b))`,
on `Some` the cursor is set, on `None` it returns
`ExceededAvailableAddressSpace`.  The state is returned unchanged on the
error path (the source mutates nothing there). -/
def skip_pages (s : VSpaceState) (count : Nat) :
    Except VSpaceError Unit × VSpaceState :=
  if PageBytes * count ≤ USIZE_MAX ∧ s.next_addr + PageBytes * count ≤ USIZE_MAX
  then (.ok (), { s with next_addr := s.next_addr + PageBytes * count })
  else (.error .ExceededAvailableAddressSpace, s)

/-! ## Memory regions

`UnmappedMemoryRegion<SizeBits, SS>` (`src/vspace.rs` lines 228–240) holds a
`CapRange` of `2^(SizeBits − PageBits)` page capabilities starting at
`start_cptr`; `SizeBits` and the shared-status tag are type parameters in
Rust and become fields here.  `crate::cap::CapRange` itself is not under
`src/`; per the spec (§3) it is "an owned, contiguous run of
2^(SizeBits − PageBits) unmapped page capabilities", matching the
contiguous-cptr iteration `MappedPageRange::iter` exhibits in
`src/vspace.rs` lines 314–325. -/

/-- Number of pages of a region: `NumPages<Size> = Pow<op!(Size - PageBits)>`
(`src/vspace.rs` line 222). -/
def numPages (sizeBits : Nat) : Nat := 2 ^ (sizeBits - PageBits)

/-- `UnmappedMemoryRegion<SizeBits, SS>`: start of the contiguous capability
range, the type-level size, and the type-level shared tag (`true` =
`shared_status::Shared`). -/
structure UnmappedMemoryRegion where
  start_cptr : Nat
  size_bits : Nat
  shared : Bool
deriving Repr, DecidableEq

/-- `MappedMemoryRegion<SizeBits, SS>` (`src/vspace.rs` lines 335–348) with
its inner `MappedPageRange` flattened: `initial_cptr`/`vaddr`/`asid` plus
the type-level size and shared tag. -/
structure MappedMemoryRegion where
  initial_cptr : Nat
  vaddr : Nat
  asid : Nat
  size_bits : Nat
  shared : Bool
deriving Repr, DecidableEq

/-- The page-mapping loop of `map_region_internal` (`src/vspace.rs` lines
697–699): `for page_cap in region.caps.iter() { self.map_given_page(...)? }`.
`out i` is the paging-chain outcome for the `i`-th page of the region (the
pages iterate in cptr order `start, start+1, …`).  On the first failure the
loop stops; the state mutations already made persist (the Rust `?` returns
with `self` already updated). -/
def mapPages (s : VSpaceState) (start idx count : Nat)
    (out : Nat → Except MappingError Unit) :
    Except VSpaceError Unit × VSpaceState :=
  match count with
  | 0 => (.ok (), s)
  | c + 1 =>
    match map_given_page s (start + idx) (out idx) with
    | .error e => (.error e, s)
    | .ok (_, s') => mapPages s' start (idx + 1) c out

/-- `VSpace::map_region_internal` (`src/vspace.rs` lines 674–701): record
`vaddr := self.next_addr`, build the `MappedMemoryRegion` (from the
pre-iteration cursor and the region's `start_cptr`), then map every page.
The final state is returned alongside the result (on error the source
leaves `self` with the partial mutations). -/
def map_region_internal (s : VSpaceState) (region : UnmappedMemoryRegion)
    (sharedOut : Bool) (out : Nat → Except MappingError Unit) :
    Except VSpaceError MappedMemoryRegion × VSpaceState :=
  let vaddr := s.next_addr
  let mapped_region : MappedMemoryRegion :=
    ⟨region.start_cptr, vaddr, s.asid, region.size_bits, sharedOut⟩
  match mapPages s region.start_cptr 0 (numPages region.size_bits) out with
  | (.error e, s') => (.error e, s')
  | (.ok _, s') => (.ok mapped_region, s')

/-- `VSpace::map_region` (`src/vspace.rs` lines 532–545): requires an
Exclusive region and produces an Exclusive mapped region via
`map_region_internal`. -/
def map_region (s : VSpaceState) (region : UnmappedMemoryRegion)
    (out : Nat → Except MappingError Unit) :
    Except VSpaceError MappedMemoryRegion × VSpaceState :=
  map_region_internal s region false out

/-- `VSpace::unmap_page` (`src/vspace.rs` lines 658–672): a raw
`seL4_ARM_Page_Unmap` whose status is the oracle input; status 0 removes
the page from the mapped ledger and returns the unmapped capability. -/
def unmap_page (s : VSpaceState) (pageCptr : Nat) (status : Nat) :
    Except SeL4Err Nat × VSpaceState :=
  if status = 0 then
    (.ok pageCptr, { s with mapped := s.mapped.filter (fun m => m.cptr ≠ pageCptr) })
  else
    (.error status, s)

/-- The unmap loop of `unmap_region` (`src/vspace.rs` lines 644–646):
`for page_cap in region.caps.iter() { self.unmap_page(page_cap)? }`, with
`statuses i` the kernel status for the `i`-th page. -/
def unmapPages (s : VSpaceState) (start idx count : Nat)
    (statuses : Nat → Nat) : Except VSpaceError Unit × VSpaceState :=
  match count with
  | 0 => (.ok (), s)
  | c + 1 =>
    match unmap_page s (start + idx) (statuses idx) with
    | (.error e, s') => (.error (.SeL4Error e), s')
    | (.ok _, s') => unmapPages s' start (idx + 1) c statuses

/-- `VSpace::unmap_region` (`src/vspace.rs` lines 632–652): remember
`start_cptr := region.caps.initial_cptr`, unmap every page in order, and
rebuild an `UnmappedMemoryRegion` with the same type-level `SizeBits` and
shared tag over `CapRange::new(start_cptr)`.  The address cursor is not
touched. -/
def unmap_region (s : VSpaceState) (region : MappedMemoryRegion)
    (statuses : Nat → Nat) :
    Except VSpaceError UnmappedMemoryRegion × VSpaceState :=
  let start_cptr := region.initial_cptr
  match unmapPages s start_cptr 0 (numPages region.size_bits) statuses with
  | (.error e, s') => (.error e, s')
  | (.ok _, s') =>
    (.ok ⟨start_cptr, region.size_bits, region.shared⟩, s')

/-- Modelled from the spec: `crate::cap::CapRange::copy` is not under
`src/`.  Per the spec (§4.3, §4.4) it copies each page capability of the
range into the caller-supplied fresh slots via the kernel copy call,
leaving the source capabilities untouched, and yields the range of copies
sitting at the destination slots.  `statuses i` is the kernel status of the
`i`-th `seL4_CNode_Copy`; the first nonzero status aborts with that error
and no range of copies is produced. -/
def capRange_copy (start count destOffset : Nat) (statuses : Nat → Nat) :
    Except SeL4Err Nat :=
  match count with
  | 0 => .ok destOffset
  | c + 1 =>
    if statuses 0 = 0 then
      match capRange_copy (start + 1) c destOffset (fun i => statuses (i + 1)) with
      | .ok _ => .ok destOffset
      | .error e => .error e
    else .error (statuses 0)

/-- `VSpace::map_shared_region` (`src/vspace.rs` lines 553–573): the Shared
region is taken *by reference*; its caps are first copied into the supplied
slots (`region.caps.copy(cnode, slots, rights)`), a fresh `Shared` unmapped
region is built over the copies, and that copy-region is what gets mapped
via `map_region_internal`.  `destOffset` is the first of the caller's fresh
slots, `copyStatuses` the kernel statuses of the copy calls, `out` the
paging-chain outcomes of the map calls. -/
def map_shared_region (s : VSpaceState) (region : UnmappedMemoryRegion)
    (destOffset : Nat) (copyStatuses : Nat → Nat)
    (out : Nat → Except MappingError Unit) :
    Except VSpaceError MappedMemoryRegion × VSpaceState :=
  match capRange_copy region.start_cptr (numPages region.size_bits) destOffset
      copyStatuses with
  | .error e => (.error (.SeL4Error e), s)
  | .ok copyStart =>
    map_region_internal s ⟨copyStart, region.size_bits, true⟩ true out

/-! ## The slot ledger and untyped algebra of `src/fancy.rs`

`CNode<FreeSlots, Role>` carries `radix`, `next_free_slot` and `cptr` at
runtime while `FreeSlots` is type-level; it becomes a field here.  The
operations that issue kernel calls return an explicit `KernelCall` trace so
that "issues no kernel call" is a provable statement. -/

/-- A kernel call issued by the `src/fancy.rs` operations, with its
arguments as passed in the source. -/
inductive KernelCall where
  /-- `seL4_Untyped_Retype(_service, type, size_bits, root, index, depth,
  offset, num_objects)`. -/
  | untypedRetype (service typeId size_bits root index depth offset num : Nat)
deriving Repr, DecidableEq

/-- `CNode<FreeSlots, Role>` from `src/fancy.rs` lines 56–62; the
type-level `FreeSlots` is the `free_slots` field. -/
structure CNode where
  radix : Nat
  next_free_slot : Nat
  cptr : Nat
  free_slots : Nat
deriving Repr, DecidableEq

/-- `CNodeSlot` from `src/fancy.rs` lines 72–76. -/
structure CNodeSlot where
  cptr : Nat
  offset : Nat
deriving Repr, DecidableEq

/-- The half-open slot-index range a `CNode` view covers:
`[next_free_slot, next_free_slot + free_slots)`. -/
def CNode.slotRange (c : CNode) : Set Nat :=
  Set.Ico c.next_free_slot (c.next_free_slot + c.free_slots)

/-- `CNode::consume_slot` from `src/fancy.rs` lines 80–99 (requires
`FreeSlots ≥ 1` at the type level): return the view advanced by one and the
slot at the old `next_free_slot`. -/
def CNode.consume_slot (c : CNode) : CNode × CNodeSlot :=
  (⟨c.radix, c.next_free_slot + 1, c.cptr, c.free_slots - 1⟩,
    ⟨c.cptr, c.next_free_slot⟩)

/-- `CNode::reserve_region::<Count>` from `src/fancy.rs` lines 103–127
(requires `Count ≤ FreeSlots` at the type level): a pure partition of the
ledger into a `Count`-capacity view at the same `next_free_slot` and a
remainder advanced by `Count`. -/
def CNode.reserve_region (c : CNode) (count : Nat) : CNode × CNode :=
  (⟨c.radix, c.next_free_slot, c.cptr, count⟩,
    ⟨c.radix, c.next_free_slot + count, c.cptr, c.free_slots - count⟩)

/-- `CNode::reservation_iter::<Count>` from `src/fancy.rs` lines 129–158:
an iterator of single-slot (`U1`) views over
`next_free_slot .. next_free_slot + Count` plus the remainder advanced by
`Count`. -/
def CNode.reservation_iter (c : CNode) (count : Nat) : List CNode × CNode :=
  ((List.range count).map
      (fun i => ⟨c.radix, c.next_free_slot + i, c.cptr, 1⟩),
    ⟨c.radix, c.next_free_slot + count, c.cptr, c.free_slots - count⟩)

/-- `Error` from `src/fancy.rs` lines 13–21 (the variants the claims
touch). -/
inductive FancyError where
  | UntypedRetype (status : Nat)
  | TCBConfigure (status : Nat)
  | MapPageTable (status : Nat)
  | ASIDPoolAssign (status : Nat)
  | MapPage (status : Nat)
  | CNodeCopy (status : Nat)
deriving Repr, DecidableEq

/-- `Capability<Untyped<BitSize>>`: capability pointer plus the type-level
`BitSize` as a field. -/
structure UntypedCap where
  cptr : Nat
  bits : Nat
deriving Repr, DecidableEq

/-- `api_object_seL4_UntypedObject`, the type id `Untyped::sel4_type_id()`
passes to the retype call. -/
def seL4_UntypedObject_id : Nat := 0

/-- `Capability::<Untyped<BitSize>>::split` from `src/fancy.rs` lines
251–298 (requires `FreeSlots ≥ 1` and `BitSize ≥ 1` at the type level):
consume one slot, issue one `seL4_Untyped_Retype(self.cptr, untyped,
BitSize−1, slot.cptr, 0, 0, slot.offset, 1)`; on nonzero status return
`Err(Error::UntypedRetype(status))`; on success return two
`Untyped<BitSize−1>` capabilities (the first reusing `self.cptr`, the
second at the fresh slot's offset) and the reduced-capacity CNode.  The
returned trace lists the kernel calls issued. -/
def untyped_split (u : UntypedCap) (dest : CNode) (status : Nat) :
    Except FancyError (UntypedCap × UntypedCap × CNode) × List KernelCall :=
  let (dest_cnode, dest_slot) := dest.consume_slot
  let call : KernelCall :=
    .untypedRetype u.cptr seL4_UntypedObject_id (u.bits - 1)
      dest_slot.cptr 0 0 dest_slot.offset 1
  if status ≠ 0 then
    (.error (.UntypedRetype status), [call])
  else
    (.ok (⟨u.cptr, u.bits - 1⟩, ⟨dest_slot.offset, u.bits - 1⟩, dest_cnode),
      [call])

/-! ## The boot-time untyped inventory of `src/micro_alloc.rs` -/

/-- The fields of `seL4_UntypedDesc` that `micro_alloc` reads. -/
structure UntypedDesc where
  sizeBits : Nat
  isDevice : Bool
  paddr : Nat
deriving Repr, DecidableEq

/-- `UntypedItem` from `src/micro_alloc.rs` lines 17–21. -/
structure UntypedItem where
  cptr : Nat
  desc : UntypedDesc
  is_free : Bool
deriving Repr, DecidableEq

/-- `Allocator` from `src/micro_alloc.rs` lines 45–47: the boot inventory,
in boot order. -/
structure Allocator where
  items : List UntypedItem
deriving Repr, DecidableEq

/-- `wrap_untyped::<BitSize>` from `src/fancy.rs` lines 236–248: succeeds
only when `untyped_desc.sizeBits == BitSize`. -/
def wrap_untyped (bitSize cptr : Nat) (desc : UntypedDesc) :
    Option UntypedCap :=
  if desc.sizeBits = bitSize then some ⟨cptr, bitSize⟩ else none

/-- The inner-loop condition of `Allocator::find_block`
(`src/micro_alloc.rs` lines 76–82): free, device flag matches, size class
matches, and the optional physical-address filter matches. -/
def matchesItem (bit_size : Nat) (device_ok : Bool) (paddr : Option Nat)
    (it : UntypedItem) : Bool :=
  it.is_free && (it.desc.isDevice == device_ok)
    && (it.desc.sizeBits == bit_size)
    && (match paddr with | some a => it.desc.paddr == a | none => true)

/-- The inner loop of `find_block` (`src/micro_alloc.rs` lines 75–89) for
one size class `bs`: scan the inventory in order; at the first item
matching `bs`, try `wrap_untyped::<BitSize>` on it, mark it non-free only
when the wrap succeeds, and return immediately (the Rust `return u;`
returns even when `u` is `None`).  `none` means the inner loop fell
through without a match. -/
def scanItems (bitSize bs : Nat) (device_ok : Bool) (paddr : Option Nat) :
    List UntypedItem → Option (Option UntypedCap × List UntypedItem)
  | [] => none
  | it :: rest =>
    if matchesItem bs device_ok paddr it then
      let u := wrap_untyped bitSize it.cptr it.desc
      some (u, (if u.isSome then { it with is_free := false } else it) :: rest)
    else
      match scanItems bitSize bs device_ok paddr rest with
      | none => none
      | some (r, rest') => some (r, it :: rest')

/-- The consecutive size classes `lo, lo+1, …` (`count` of them), i.e. the
Rust iterator `lo..=hi` with `count = hi + 1 - lo`. -/
def sizeRange (lo count : Nat) : List Nat :=
  match count with
  | 0 => []
  | c + 1 => lo :: sizeRange (lo + 1) c

/-- The outer loop of `find_block` over the ascending size classes
`sizes`. -/
def findBlockGo (bitSize : Nat) (device_ok : Bool) (paddr : Option Nat)
    (items : List UntypedItem) :
    List Nat → Option UntypedCap × List UntypedItem
  | [] => (none, items)
  | bs :: rest =>
    match scanItems bitSize bs device_ok paddr items with
    | some r => r
    | none => findBlockGo bitSize device_ok paddr items rest

/-- `Allocator::find_block::<BitSize>` from `src/micro_alloc.rs` lines
65–93: `for bit_size in BitSize..=MAX_UNTYPED_SIZE_BITS` over the inventory;
returns the wrapped capability (or `None`) and the updated inventory. -/
def find_block (bitSize : Nat) (device_ok : Bool) (paddr : Option Nat)
    (a : Allocator) : Option UntypedCap × Allocator :=
  let r := findBlockGo bitSize device_ok paddr a.items
    (sizeRange bitSize (MAX_UNTYPED_SIZE_BITS + 1 - bitSize))
  (r.1, ⟨r.2⟩)

/-- `Allocator::get_untyped::<BitSize>` from `src/micro_alloc.rs` lines
95–97: `find_block::<BitSize>(false, None)`. -/
def get_untyped (bitSize : Nat) (a : Allocator) :
    Option UntypedCap × Allocator :=
  find_block bitSize false none a

/-! ## Derived definitions used by the statements -/

/-- `VSpace::map_shared_region_and_consume` (`src/vspace.rs` lines
580–593): consume a Shared region and map it, keeping the Shared tag. -/
def map_shared_region_and_consume (s : VSpaceState)
    (region : UnmappedMemoryRegion) (out : Nat → Except MappingError Unit) :
    Except VSpaceError MappedMemoryRegion × VSpaceState :=
  map_region_internal s region true out

/-- How `map_given_page` converts a `MappingError` into a `VSpaceError`
(the `match` of `src/vspace.rs` lines 431–445): the two kernel-failure
variants become `SeL4Error`, everything else is wrapped in
`MappingError`. -/
def vspaceErrorOf : MappingError → VSpaceError
  | .PageMapFailure e => .SeL4Error e
  | .IntermediateLayerFailure e => .SeL4Error e
  | e => .MappingError e

/-- The page mappings produced by successfully mapping `count` consecutive
pages `start+idx, start+idx+1, …` beginning at cursor position `vaddr`
under `asid` — each successful `map_given_page` advances the cursor by
`PageBits` (the source's literal increment). -/
def mappingsFrom (start idx count vaddr asid : Nat) : List PageMapping :=
  match count with
  | 0 => []
  | c + 1 =>
    ⟨start + idx, vaddr, asid⟩ ::
      mappingsFrom start (idx + 1) c (vaddr + PageBits) asid

/-! ## Helper lemmas -/

theorem map_given_page_ok (s : VSpaceState) (p : Nat) :
    map_given_page s p (.ok ()) =
      .ok (⟨p, s.next_addr, s.asid⟩,
        ⟨s.next_addr + PageBits, s.asid,
          s.mapped ++ [⟨p, s.next_addr, s.asid⟩]⟩) := rfl

theorem map_given_page_error (s : VSpaceState) (p : Nat) (e : MappingError) :
    map_given_page s p (.error e) = .error (vspaceErrorOf e) := by
  cases e <;> rfl

theorem mapPages_ok (count : Nat) :
    ∀ (s : VSpaceState) (start idx : Nat)
      (out : Nat → Except MappingError Unit),
      (∀ i, i < count → out (idx + i) = .ok ()) →
      mapPages s start idx count out =
        (.ok (), ⟨s.next_addr + count * PageBits, s.asid,
          s.mapped ++ mappingsFrom start idx count s.next_addr s.asid⟩) := by
  induction count with
  | zero =>
    intro s start idx out _
    simp [mapPages, mappingsFrom]
  | succ c ih =>
    intro s start idx out h
    have h0 : out idx = .ok () := by simpa using h 0 (Nat.succ_pos c)
    have hrest : ∀ i, i < c → out (idx + 1 + i) = .ok () := by
      intro i hi
      rw [show idx + 1 + i = idx + (i + 1) by omega]
      exact h (i + 1) (by omega)
    have step : mapPages s start idx (c + 1) out =
        mapPages ⟨s.next_addr + PageBits, s.asid,
          s.mapped ++ [⟨start + idx, s.next_addr, s.asid⟩]⟩ start (idx + 1) c
          out := by
      rw [show mapPages s start idx (c + 1) out =
          (match map_given_page s (start + idx) (out idx) with
            | .error e => (.error e, s)
            | .ok (_, s') => mapPages s' start (idx + 1) c out) from rfl,
        h0, map_given_page_ok]
    rw [step, ih _ start (idx + 1) out hrest]
    simp only [mappingsFrom, List.append_assoc, List.singleton_append]
    rw [show s.next_addr + PageBits + c * PageBits =
        s.next_addr + (c + 1) * PageBits from by simp only [PageBits]; omega]

theorem mapPages_fail (j : Nat) :
    ∀ (count : Nat) (s : VSpaceState) (start idx : Nat)
      (out : Nat → Except MappingError Unit) (e : MappingError),
      j < count →
      (∀ i, i < j → out (idx + i) = .ok ()) →
      out (idx + j) = .error e →
      mapPages s start idx count out =
        (.error (vspaceErrorOf e),
          ⟨s.next_addr + j * PageBits, s.asid,
            s.mapped ++ mappingsFrom start idx j s.next_addr s.asid⟩) := by
  induction j with
  | zero =>
    intro count s start idx out e hj _ hf
    obtain ⟨c, rfl⟩ : ∃ c, count = c + 1 := ⟨count - 1, by omega⟩
    have hf' : out idx = .error e := by simpa using hf
    rw [show mapPages s start idx (c + 1) out =
        (match map_given_page s (start + idx) (out idx) with
          | .error e => (.error e, s)
          | .ok (_, s') => mapPages s' start (idx + 1) c out) from rfl,
      hf', map_given_page_error]
    simp [mappingsFrom]
  | succ jj ih =>
    intro count s start idx out e hj hok hf
    obtain ⟨c, rfl⟩ : ∃ c, count = c + 1 := ⟨count - 1, by omega⟩
    have h0 : out idx = .ok () := by simpa using hok 0 (Nat.succ_pos jj)
    have hok' : ∀ i, i < jj → out (idx + 1 + i) = .ok () := by
      intro i hi
      rw [show idx + 1 + i = idx + (i + 1) by omega]
      exact hok (i + 1) (by omega)
    have hf' : out (idx + 1 + jj) = .error e := by
      rw [show idx + 1 + jj = idx + (jj + 1) by omega]; exact hf
    have step : mapPages s start idx (c + 1) out =
        mapPages ⟨s.next_addr + PageBits, s.asid,
          s.mapped ++ [⟨start + idx, s.next_addr, s.asid⟩]⟩ start (idx + 1) c
          out := by
      rw [show mapPages s start idx (c + 1) out =
          (match map_given_page s (start + idx) (out idx) with
            | .error e => (.error e, s)
            | .ok (_, s') => mapPages s' start (idx + 1) c out) from rfl,
        h0, map_given_page_ok]
    rw [step, ih c _ start (idx + 1) out e (by omega) hok' hf']
    simp only [mappingsFrom, List.append_assoc, List.singleton_append]
    rw [show s.next_addr + PageBits + jj * PageBits =
        s.next_addr + (jj + 1) * PageBits from by simp only [PageBits]; omega]

theorem unmapPages_cursor (count : Nat) :
    ∀ (s : VSpaceState) (start idx : Nat) (statuses : Nat → Nat),
      (unmapPages s start idx count statuses).2.next_addr = s.next_addr ∧
      (unmapPages s start idx count statuses).2.asid = s.asid := by
  induction count with
  | zero => intro s start idx statuses; simp [unmapPages]
  | succ c ih =>
    intro s start idx statuses
    by_cases h : statuses idx = 0 <;>
      simp [unmapPages, unmap_page, h, ih]

theorem unmapPages_ok (count : Nat) :
    ∀ (s : VSpaceState) (start idx : Nat) (statuses : Nat → Nat),
      (∀ i, i < count → statuses (idx + i) = 0) →
      (unmapPages s start idx count statuses).1 = .ok () := by
  induction count with
  | zero => intro s start idx statuses _; rfl
  | succ c ih =>
    intro s start idx statuses h
    have h0 : statuses idx = 0 := by simpa using h 0 (Nat.succ_pos c)
    have hrest : ∀ i, i < c → statuses (idx + 1 + i) = 0 := by
      intro i hi
      rw [show idx + 1 + i = idx + (i + 1) by omega]
      exact h (i + 1) (by omega)
    simp [unmapPages, unmap_page, h0, ih _ start (idx + 1) statuses hrest]

theorem capRange_copy_ok (count : Nat) :
    ∀ (start destOffset : Nat) (statuses : Nat → Nat),
      (∀ i, i < count → statuses i = 0) →
      capRange_copy start count destOffset statuses = .ok destOffset := by
  induction count with
  | zero => intro start d st _; rfl
  | succ c ih =>
    intro start d st h
    have h0 : st 0 = 0 := h 0 (Nat.succ_pos c)
    have hrest : ∀ i, i < c → st (i + 1) = 0 := fun i hi => h (i + 1) (by omega)
    simp [capRange_copy, h0, ih (start + 1) d (fun i => st (i + 1)) hrest]

theorem mappingsFrom_mem (count : Nat) :
    ∀ (start idx vaddr asid : Nat) (p : PageMapping),
      p ∈ mappingsFrom start idx count vaddr asid →
      start + idx ≤ p.cptr ∧ p.cptr < start + idx + count ∧ p.asid = asid := by
  induction count with
  | zero => intro start idx v a p h; simp [mappingsFrom] at h
  | succ c ih =>
    intro start idx v a p h
    simp only [mappingsFrom, List.mem_cons] at h
    rcases h with rfl | h
    · exact ⟨Nat.le_refl _,
        by show start + idx < start + idx + (c + 1); omega, rfl⟩
    · obtain ⟨h1, h2, h3⟩ := ih start (idx + 1) (v + PageBits) a p h
      exact ⟨by omega, by omega, h3⟩

theorem scanItems_no_match (bitSize bs : Nat) (device_ok : Bool)
    (paddr : Option Nat) :
    ∀ l : List UntypedItem,
      (∀ x ∈ l, matchesItem bs device_ok paddr x = false) →
      scanItems bitSize bs device_ok paddr l = none := by
  intro l
  induction l with
  | nil => intro _; rfl
  | cons it rest ih =>
    intro h
    have h0 : matchesItem bs device_ok paddr it = false := h it (by simp)
    simp [scanItems, h0, ih (fun x hx => h x (by simp [hx]))]

theorem scanItems_wrong_size (bitSize bs : Nat) (hne : bs ≠ bitSize)
    (device_ok : Bool) (paddr : Option Nat) :
    ∀ l : List UntypedItem,
      scanItems bitSize bs device_ok paddr l = none ∨
      scanItems bitSize bs device_ok paddr l = some (none, l) := by
  intro l
  induction l with
  | nil => left; rfl
  | cons it rest ih =>
    by_cases h0 : matchesItem bs device_ok paddr it = true
    · right
      have hsz : it.desc.sizeBits = bs := by
        simp only [matchesItem, Bool.and_eq_true, beq_iff_eq] at h0
        exact h0.1.2
      have hw : wrap_untyped bitSize it.cptr it.desc = none := by
        simp [wrap_untyped, hsz, hne]
      simp [scanItems, h0, hw]
    · rw [Bool.not_eq_true] at h0
      rcases ih with h | h
      · left; simp [scanItems, h0, h]
      · right; simp [scanItems, h0, h]

theorem scanItems_first_match (bitSize : Nat) (device_ok : Bool)
    (paddr : Option Nat) (it : UntypedItem)
    (hit : matchesItem bitSize device_ok paddr it = true) :
    ∀ pre post : List UntypedItem,
      (∀ x ∈ pre, matchesItem bitSize device_ok paddr x = false) →
      scanItems bitSize bitSize device_ok paddr (pre ++ it :: post) =
        some (some ⟨it.cptr, bitSize⟩,
          pre ++ { it with is_free := false } :: post) := by
  have hsz : it.desc.sizeBits = bitSize := by
    simp only [matchesItem, Bool.and_eq_true, beq_iff_eq] at hit
    exact hit.1.2
  have hw : wrap_untyped bitSize it.cptr it.desc =
      some ⟨it.cptr, bitSize⟩ := by
    simp [wrap_untyped, hsz]
  intro pre
  induction pre with
  | nil => intro post _; simp [scanItems, hit, hw]
  | cons y ys ih =>
    intro post h
    have h0 : matchesItem bitSize device_ok paddr y = false := h y (by simp)
    simp [scanItems, h0, ih post (fun x hx => h x (by simp [hx]))]

theorem findBlockGo_no_exact (bitSize : Nat) (device_ok : Bool)
    (paddr : Option Nat) (items : List UntypedItem)
    (hno : ∀ x ∈ items, matchesItem bitSize device_ok paddr x = false) :
    ∀ sizes : List Nat,
      findBlockGo bitSize device_ok paddr items sizes = (none, items) := by
  intro sizes
  induction sizes with
  | nil => rfl
  | cons bs rest ih =>
    by_cases hbs : bs = bitSize
    · subst hbs
      simp [findBlockGo, scanItems_no_match bs bs device_ok paddr items hno,
        ih]
    · rcases scanItems_wrong_size bitSize bs hbs device_ok paddr items with
        h | h
      · simp [findBlockGo, h, ih]
      · simp [findBlockGo, h]

/-! ## Claim theorems -/

/-- **C1** (code bug): the claim says two consecutive single-page mappings
produce virtual addresses differing by exactly one page size
(`PageBytes = 4096`).  The code's `map_given_page` advances the cursor with
`self.next_addr += PageBits::USIZE` — the bit *count* 12, not the byte size
4096 — so, evaluated at a fresh VSpace (cursor 0, asid 7), two successful
single-page mappings yield vaddrs 0 and 12: one `PageBits` apart, not one
`PageBytes`.  Both pages do carry the VSpace's asid. -/
theorem c1_map_given_page_advances_by_pagebits_not_pagebytes :
    map_given_page ⟨0, 7, []⟩ 100 (.ok ()) =
      .ok (⟨100, 0, 7⟩, ⟨12, 7, [⟨100, 0, 7⟩]⟩) ∧
    map_given_page ⟨12, 7, [⟨100, 0, 7⟩]⟩ 101 (.ok ()) =
      .ok (⟨101, 12, 7⟩, ⟨24, 7, [⟨100, 0, 7⟩, ⟨101, 12, 7⟩]⟩) ∧
    PageBits = 12 ∧ PageBytes = 4096 ∧ PageBits ≠ PageBytes :=
  ⟨rfl, rfl, rfl, by decide, by decide⟩

/-- **C3**: when a `PagingRec` node's own layer reports
`MappingError::Overflow`, the node retypes exactly one unit of untyped into
the next-outer layer's granule, recurses into the outer layer at the same
address, then retries its own layer exactly once (the result being that
retry's result); any other error from the inner layer is returned
immediately, with no retype, no recursion and no retry. -/
theorem c3_pagingRec_map_item_retries_once_only_on_overflow
    (o : PagingOracle) (addr : Nat) :
    (o.layer 0 addr = .error .Overflow → o.retype = .ok () →
      o.next addr = .ok () →
      pagingRec_map_item o addr =
        (o.layer 1 addr,
          [.layerCall addr, .retypeOuterGranule, .nextCall addr,
            .layerCall addr])) ∧
    (∀ e : MappingError, e ≠ .Overflow → o.layer 0 addr = .error e →
      pagingRec_map_item o addr = (.error e, [.layerCall addr])) := by
  constructor
  · intro h1 h2 h3
    simp [pagingRec_map_item, h1, h2, h3]
  · intro e hne h
    cases e
    case Overflow => exact absurd rfl hne
    all_goals simp [pagingRec_map_item, h]

/-- Witness for C3: a concrete oracle whose first layer call overflows and
one whose layer call fails with a kernel page-map error. -/
theorem c3_witness :
    pagingRec_map_item
        ⟨fun n _ => if n = 0 then .error .Overflow else .ok (), .ok (),
          fun _ => .ok ()⟩ 4096 =
      (.ok (),
        [.layerCall 4096, .retypeOuterGranule, .nextCall 4096,
          .layerCall 4096]) ∧
    pagingRec_map_item
        ⟨fun _ _ => .error (.PageMapFailure 3), .ok (), fun _ => .ok ()⟩
        4096 =
      (.error (.PageMapFailure 3), [.layerCall 4096]) :=
  ⟨(c3_pagingRec_map_item_retries_once_only_on_overflow
      ⟨fun n _ => if n = 0 then .error .Overflow else .ok (), .ok (),
        fun _ => .ok ()⟩ 4096).1 rfl rfl rfl,
   (c3_pagingRec_map_item_retries_once_only_on_overflow
      ⟨fun _ _ => .error (.PageMapFailure 3), .ok (), fun _ => .ok ()⟩
      4096).2 (.PageMapFailure 3) (by decide) rfl⟩

/-- **C4**: for `Count ≤ FreeSlots`, `reserve_region` splits a CNode view
into a view of capacity `Count` and a remainder of capacity
`FreeSlots − Count`, both over the same table (`cptr`, and `radix`), the
remainder starting `Count` slots past the reserved view's first free slot,
with disjoint slot-index ranges.  The embedding gives `reserve_region` no
kernel-status argument and no `KernelCall` trace: it is a pure ledger
partition issuing no kernel call. -/
theorem c4_reserve_region_pure_disjoint_partition (c : CNode) (count : Nat)
    (h : count ≤ c.free_slots) :
    c.reserve_region count =
      (⟨c.radix, c.next_free_slot, c.cptr, count⟩,
        ⟨c.radix, c.next_free_slot + count, c.cptr,
          c.free_slots - count⟩) ∧
    Disjoint (c.reserve_region count).1.slotRange
      (c.reserve_region count).2.slotRange := by
  refine ⟨rfl, ?_⟩
  rw [Set.disjoint_left]
  intro x hx hy
  simp only [CNode.reserve_region, CNode.slotRange, Set.mem_Ico] at hx hy
  omega

/-- Witness for C4 at a concrete CNode view of capacity 24 and
`Count = 5`. -/
theorem c4_witness :
    (5 : Nat) ≤ 24 ∧
    ((⟨19, 1000, 2, 24⟩ : CNode).reserve_region 5 =
        (⟨19, 1000, 2, 5⟩, ⟨19, 1005, 2, 19⟩) ∧
      Disjoint ((⟨19, 1000, 2, 24⟩ : CNode).reserve_region 5).1.slotRange
        ((⟨19, 1000, 2, 24⟩ : CNode).reserve_region 5).2.slotRange) :=
  ⟨by decide,
    c4_reserve_region_pure_disjoint_partition ⟨19, 1000, 2, 24⟩ 5 (by decide)⟩

/-- **C5**: `split` on an `Untyped<N>` with a CNode of `FreeSlots ≥ 1`
consumes exactly one slot and issues exactly one
`seL4_Untyped_Retype(self.cptr, untyped, N−1, slot.cptr, 0, 0, slot.offset,
1)`; on status 0 it returns two `Untyped<N−1>` capabilities (one reusing
the source cptr, one at the consumed slot's offset) plus the CNode of
capacity `FreeSlots − 1`; on a nonzero status it returns
`Err(Error::UntypedRetype(status))` with the raw status and no fresh
capability handle (the error carries nothing but the status). -/
theorem c5_untyped_split_success_and_failure (u : UntypedCap) (c : CNode)
    (status : Nat) (hb : 1 ≤ u.bits) (hf : 1 ≤ c.free_slots) :
    (status = 0 →
      untyped_split u c status =
        (.ok (⟨u.cptr, u.bits - 1⟩, ⟨c.next_free_slot, u.bits - 1⟩,
            ⟨c.radix, c.next_free_slot + 1, c.cptr, c.free_slots - 1⟩),
          [.untypedRetype u.cptr seL4_UntypedObject_id (u.bits - 1) c.cptr
            0 0 c.next_free_slot 1])) ∧
    (status ≠ 0 →
      untyped_split u c status =
        (.error (.UntypedRetype status),
          [.untypedRetype u.cptr seL4_UntypedObject_id (u.bits - 1) c.cptr
            0 0 c.next_free_slot 1])) := by
  constructor
  · intro h; subst h; rfl
  · intro h; simp [untyped_split, CNode.consume_slot, h]

/-- Witness for C5: splitting an `Untyped<10>` at cptr 9 against a CNode
of capacity 24, once with kernel status 0 and once with status 3. -/
theorem c5_witness :
    (1 : Nat) ≤ 10 ∧ (1 : Nat) ≤ 24 ∧
    untyped_split ⟨9, 10⟩ ⟨19, 1000, 2, 24⟩ 0 =
      (.ok (⟨9, 9⟩, ⟨1000, 9⟩, ⟨19, 1001, 2, 23⟩),
        [.untypedRetype 9 seL4_UntypedObject_id 9 2 0 0 1000 1]) ∧
    untyped_split ⟨9, 10⟩ ⟨19, 1000, 2, 24⟩ 3 =
      (.error (.UntypedRetype 3),
        [.untypedRetype 9 seL4_UntypedObject_id 9 2 0 0 1000 1]) :=
  ⟨by decide, by decide,
    (c5_untyped_split_success_and_failure ⟨9, 10⟩ ⟨19, 1000, 2, 24⟩ 0
      (by decide) (by decide)).1 rfl,
    (c5_untyped_split_success_and_failure ⟨9, 10⟩ ⟨19, 1000, 2, 24⟩ 3
      (by decide) (by decide)).2 (by decide)⟩

/-- **C7**: `skip_pages(n)` maps nothing (the mapped-page ledger and asid
are untouched; the embedding gives it no kernel-outcome argument since the
source issues no kernel call); when `next_addr + n·PageBytes` stays within
the representable `usize` range it advances the cursor by exactly
`n · PageBytes`, otherwise it returns
`VSpaceError::ExceededAvailableAddressSpace` and leaves the state
unchanged. -/
theorem c7_skip_pages_cursor_advance_or_error (s : VSpaceState) (n : Nat) :
    ((skip_pages s n).2.asid = s.asid ∧
      (skip_pages s n).2.mapped = s.mapped) ∧
    (s.next_addr + PageBytes * n ≤ USIZE_MAX →
      skip_pages s n =
        (.ok (), ⟨s.next_addr + PageBytes * n, s.asid, s.mapped⟩)) ∧
    (USIZE_MAX < s.next_addr + PageBytes * n →
      skip_pages s n = (.error .ExceededAvailableAddressSpace, s)) := by
  refine ⟨?_, ?_, ?_⟩
  · by_cases h : PageBytes * n ≤ USIZE_MAX ∧
        s.next_addr + PageBytes * n ≤ USIZE_MAX <;>
      simp [skip_pages, h]
  · intro h
    have h1 : PageBytes * n ≤ USIZE_MAX :=
      le_trans (Nat.le_add_left _ _) h
    simp [skip_pages, h, h1]
  · intro h
    have hno : ¬(PageBytes * n ≤ USIZE_MAX ∧
        s.next_addr + PageBytes * n ≤ USIZE_MAX) := by omega
    simp [skip_pages, hno]

/-- Witness for C7: skipping 3 pages from cursor 0 advances by
`3 · PageBytes`; skipping 1 page from cursor `USIZE_MAX` fails and leaves
the state unchanged. -/
theorem c7_witness :
    skip_pages ⟨0, 1, []⟩ 3 = (.ok (), ⟨PageBytes * 3, 1, []⟩) ∧
    skip_pages ⟨USIZE_MAX, 1, []⟩ 1 =
      (.error .ExceededAvailableAddressSpace, ⟨USIZE_MAX, 1, []⟩) :=
  ⟨(c7_skip_pages_cursor_advance_or_error ⟨0, 1, []⟩ 3).2.1 (by decide),
   (c7_skip_pages_cursor_advance_or_error ⟨USIZE_MAX, 1, []⟩ 1).2.2
    (by decide)⟩

/-- **C10**: every slot-ledger operation keeps the table pointer and radix
of the input view and never decreases the next-free-slot index:
`consume_slot` hands out the slot at the old index and advances the view by
one; `reserve_region` and `reservation_iter` advance the remainder by
exactly `Count`, and every handed-out view covers only slot indices below
the remainder's start. -/
theorem c10_slot_ledger_views_invariants (c : CNode) (count : Nat)
    (h1 : 1 ≤ c.free_slots) (h2 : count ≤ c.free_slots) :
    (c.consume_slot =
      (⟨c.radix, c.next_free_slot + 1, c.cptr, c.free_slots - 1⟩,
        ⟨c.cptr, c.next_free_slot⟩)) ∧
    ((c.reserve_region count).1 =
        ⟨c.radix, c.next_free_slot, c.cptr, count⟩ ∧
      (c.reserve_region count).2 =
        ⟨c.radix, c.next_free_slot + count, c.cptr,
          c.free_slots - count⟩ ∧
      (c.reserve_region count).1.next_free_slot +
          (c.reserve_region count).1.free_slots ≤
        (c.reserve_region count).2.next_free_slot) ∧
    ((c.reservation_iter count).2 =
        ⟨c.radix, c.next_free_slot + count, c.cptr,
          c.free_slots - count⟩ ∧
      ∀ v ∈ (c.reservation_iter count).1,
        v.cptr = c.cptr ∧ v.radix = c.radix ∧ v.free_slots = 1 ∧
        c.next_free_slot ≤ v.next_free_slot ∧
        v.next_free_slot + v.free_slots ≤
          (c.reservation_iter count).2.next_free_slot) := by
  refine ⟨rfl, ⟨rfl, rfl, by simp [CNode.reserve_region]⟩, rfl, ?_⟩
  intro v hv
  simp only [CNode.reservation_iter, List.mem_map, List.mem_range] at hv
  obtain ⟨i, hi, rfl⟩ := hv
  refine ⟨rfl, rfl, rfl, by simp, ?_⟩
  simp [CNode.reservation_iter]
  omega

/-- Witness for C10 at a concrete CNode view of capacity 24 and
`Count = 3`. -/
theorem c10_witness :
    ((⟨19, 1000, 2, 24⟩ : CNode).consume_slot =
      (⟨19, 1001, 2, 23⟩, ⟨2, 1000⟩)) ∧
    (((⟨19, 1000, 2, 24⟩ : CNode).reserve_region 3).1 =
        ⟨19, 1000, 2, 3⟩ ∧
      ((⟨19, 1000, 2, 24⟩ : CNode).reserve_region 3).2 =
        ⟨19, 1003, 2, 21⟩ ∧
      ((⟨19, 1000, 2, 24⟩ : CNode).reserve_region 3).1.next_free_slot +
          ((⟨19, 1000, 2, 24⟩ : CNode).reserve_region 3).1.free_slots ≤
        ((⟨19, 1000, 2, 24⟩ : CNode).reserve_region 3).2.next_free_slot) ∧
    (((⟨19, 1000, 2, 24⟩ : CNode).reservation_iter 3).2 =
        ⟨19, 1003, 2, 21⟩ ∧
      ∀ v ∈ ((⟨19, 1000, 2, 24⟩ : CNode).reservation_iter 3).1,
        v.cptr = 2 ∧ v.radix = 19 ∧ v.free_slots = 1 ∧
        1000 ≤ v.next_free_slot ∧
        v.next_free_slot + v.free_slots ≤
          ((⟨19, 1000, 2, 24⟩ : CNode).reservation_iter 3).2.next_free_slot) :=
  c10_slot_ledger_views_invariants ⟨19, 1000, 2, 24⟩ 3 (by decide) (by decide)

/-- **C2** (counterexample): the claim says `get_untyped` hands out the
*first* free non-device block of *sufficient* size (first fit over the boot
inventory) and returns `None` only when no sufficient free block exists.
Inventory A holds a sufficient (size 6) free non-device block first in boot
order and an exactly-sized (size 5) one second; requesting size 5 returns
the *second* block, not the first sufficient one.  Inventory B holds only
the size-6 block — free, non-device, and sufficient (5 ≤ 6) — yet
requesting size 5 returns `None` (and leaves the inventory unchanged),
because `wrap_untyped` accepts only an exact size match. -/
theorem c2_get_untyped_not_first_fit_counterexample :
    (get_untyped 5 ⟨[⟨1, ⟨6, false, 0⟩, true⟩, ⟨2, ⟨5, false, 0⟩, true⟩]⟩).1 =
      some ⟨2, 5⟩ ∧
    get_untyped 5 ⟨[⟨1, ⟨6, false, 0⟩, true⟩]⟩ =
      (none, ⟨[⟨1, ⟨6, false, 0⟩, true⟩]⟩) ∧
    (5 : Nat) ≤ 6 := by decide

/-- **C2** (amended): for every in-range request `BitSize`,
`Allocator::get_untyped` returns a capability to the first (in boot-
inventory order) free non-device untyped block whose size *equals*
`BitSize` exactly, marking that block no longer free; when no free
non-device block of exactly the requested size exists it returns `None`
with the inventory unchanged — even if free non-device blocks larger than
the request remain (they are found but rejected by `wrap_untyped`'s
exact-size check, ending the scan).
(`matchesItem BitSize false none x` says: `x` is free, non-device, and of
size exactly `BitSize`.) -/
theorem c2_amended_get_untyped_exact_size_first_in_boot_order
    (bitSize : Nat) (hle : bitSize ≤ MAX_UNTYPED_SIZE_BITS) :
    (∀ (pre post : List UntypedItem) (it : UntypedItem),
      (∀ x ∈ pre, matchesItem bitSize false none x = false) →
      matchesItem bitSize false none it = true →
      get_untyped bitSize ⟨pre ++ it :: post⟩ =
        (some ⟨it.cptr, bitSize⟩,
          ⟨pre ++ { it with is_free := false } :: post⟩)) ∧
    (∀ l : List UntypedItem,
      (∀ x ∈ l, matchesItem bitSize false none x = false) →
      get_untyped bitSize ⟨l⟩ = (none, ⟨l⟩)) := by
  have hcnt : MAX_UNTYPED_SIZE_BITS + 1 - bitSize =
      (MAX_UNTYPED_SIZE_BITS - bitSize) + 1 := by omega
  constructor
  · intro pre post it hpre hit
    have hscan := scanItems_first_match bitSize false none it hit pre post hpre
    simp only [get_untyped, find_block, hcnt, sizeRange, findBlockGo, hscan]
  · intro l hno
    simp only [get_untyped, find_block,
      findBlockGo_no_exact bitSize false none l hno]

/-- Witness for C2 (amended): requesting size 5 from an inventory whose
first exact-size free non-device block sits at position 1 (after a free
size-6 block) hands out that block and marks it used; an inventory with no
free non-device size-5 block yields `None` unchanged. -/
theorem c2_amended_witness :
    (get_untyped 5 ⟨[⟨1, ⟨6, false, 0⟩, true⟩, ⟨2, ⟨5, false, 0⟩, true⟩]⟩ =
      (some ⟨2, 5⟩,
        ⟨[⟨1, ⟨6, false, 0⟩, true⟩, ⟨2, ⟨5, false, 0⟩, false⟩]⟩)) ∧
    (get_untyped 5 ⟨[⟨1, ⟨6, false, 0⟩, true⟩, ⟨3, ⟨5, true, 0⟩, true⟩]⟩ =
      (none, ⟨[⟨1, ⟨6, false, 0⟩, true⟩, ⟨3, ⟨5, true, 0⟩, true⟩]⟩)) :=
  ⟨(c2_amended_get_untyped_exact_size_first_in_boot_order 5 (by decide)).1
      [⟨1, ⟨6, false, 0⟩, true⟩] [] ⟨2, ⟨5, false, 0⟩, true⟩
      (by decide) (by decide),
   (c2_amended_get_untyped_exact_size_first_in_boot_order 5 (by decide)).2
      [⟨1, ⟨6, false, 0⟩, true⟩, ⟨3, ⟨5, true, 0⟩, true⟩] (by decide)⟩

/-- **C6**: when the underlying kernel calls succeed,
`unmap_region(map_region(R))` yields an `UnmappedMemoryRegion` with R's
`SizeBits` (hence the same `2^(SizeBits−PageBits)` page count) and R's
original shared-status tag, over the same capability range
(`start_cptr`); the address cursor is not moved back by the unmap — the
freed virtual addresses are not reused by later mappings. -/
theorem c6_unmap_map_region_round_trip (s : VSpaceState)
    (R : UnmappedMemoryRegion) (out : Nat → Except MappingError Unit)
    (statuses : Nat → Nat)
    (hout : ∀ i, i < numPages R.size_bits → out i = .ok ())
    (hst : ∀ i, i < numPages R.size_bits → statuses i = 0) :
    ∃ (m : MappedMemoryRegion) (s1 : VSpaceState)
      (R' : UnmappedMemoryRegion) (s2 : VSpaceState),
      map_region_internal s R R.shared out = (.ok m, s1) ∧
      unmap_region s1 m statuses = (.ok R', s2) ∧
      R'.start_cptr = R.start_cptr ∧ R'.size_bits = R.size_bits ∧
      R'.shared = R.shared ∧
      numPages R'.size_bits = numPages R.size_bits ∧
      s2.next_addr = s1.next_addr ∧ s.next_addr ≤ s2.next_addr := by
  have hmp := mapPages_ok (numPages R.size_bits) s R.start_cptr 0 out
    (fun i hi => by rw [Nat.zero_add]; exact hout i hi)
  set s1 : VSpaceState :=
    ⟨s.next_addr + numPages R.size_bits * PageBits, s.asid,
      s.mapped ++
        mappingsFrom R.start_cptr 0 (numPages R.size_bits) s.next_addr
          s.asid⟩ with hs1
  have hmap : map_region_internal s R R.shared out =
      (.ok ⟨R.start_cptr, s.next_addr, s.asid, R.size_bits, R.shared⟩,
        s1) := by
    simp only [map_region_internal, hmp]
  obtain ⟨r2, s2, hu⟩ :
      ∃ r2 s2, unmapPages s1 R.start_cptr 0 (numPages R.size_bits)
        statuses = (r2, s2) :=
    ⟨_, _, rfl⟩
  have hr2 : r2 = .ok () := by
    have h1 := unmapPages_ok (numPages R.size_bits) s1 R.start_cptr 0
      statuses (fun i hi => by rw [Nat.zero_add]; exact hst i hi)
    rw [hu] at h1
    exact h1
  subst hr2
  have hcursor := unmapPages_cursor (numPages R.size_bits) s1 R.start_cptr
    0 statuses
  rw [hu] at hcursor
  refine ⟨_, s1, ⟨R.start_cptr, R.size_bits, R.shared⟩, s2, hmap, ?_, rfl,
    rfl, rfl, rfl, hcursor.1, ?_⟩
  · simp only [unmap_region, hu]
  · rw [hcursor.1, hs1]
    exact Nat.le_add_right _ _

/-- Witness for C6: a 2-page Exclusive region mapped into a fresh VSpace
and unmapped again, all kernel calls succeeding. -/
theorem c6_witness :
    ∃ (m : MappedMemoryRegion) (s1 : VSpaceState)
      (R' : UnmappedMemoryRegion) (s2 : VSpaceState),
      map_region_internal ⟨0, 7, []⟩ ⟨50, 13, false⟩ false
          (fun _ => .ok ()) = (.ok m, s1) ∧
      unmap_region s1 m (fun _ => 0) = (.ok R', s2) ∧
      R'.start_cptr = 50 ∧ R'.size_bits = 13 ∧ R'.shared = false ∧
      numPages R'.size_bits = numPages 13 ∧
      s2.next_addr = s1.next_addr ∧ (0 : Nat) ≤ s2.next_addr :=
  c6_unmap_map_region_round_trip ⟨0, 7, []⟩ ⟨50, 13, false⟩
    (fun _ => .ok ()) (fun _ => 0) (fun _ _ => rfl) (fun _ _ => rfl)

/-- **C8** (CapRange::copy modelled from the spec): `map_shared_region` on
a Shared region first copies each page capability into the caller's fresh
slots and maps only those copies: the returned `MappedMemoryRegion`
carries the Shared tag and sits over the copies' capability range
(starting at the supplied slot offset), and every page mapping added to
the kernel ledger uses a copy cptr, never one of the original region's.
The region itself is taken by reference (here: a value the function never
alters), so it remains usable for mapping into another address space. -/
theorem c8_map_shared_region_maps_only_copies (s : VSpaceState)
    (R : UnmappedMemoryRegion) (destOffset : Nat)
    (copyStatuses : Nat → Nat) (out : Nat → Except MappingError Unit)
    (hcs : ∀ i, i < numPages R.size_bits → copyStatuses i = 0)
    (hout : ∀ i, i < numPages R.size_bits → out i = .ok ()) :
    ∃ (m : MappedMemoryRegion) (s' : VSpaceState),
      map_shared_region s R destOffset copyStatuses out = (.ok m, s') ∧
      m.shared = true ∧ m.initial_cptr = destOffset ∧
      m.size_bits = R.size_bits ∧ m.vaddr = s.next_addr ∧
      s'.mapped = s.mapped ++
        mappingsFrom destOffset 0 (numPages R.size_bits) s.next_addr
          s.asid ∧
      (∀ p ∈ s'.mapped, p ∈ s.mapped ∨
        (destOffset ≤ p.cptr ∧
          p.cptr < destOffset + numPages R.size_bits)) := by
  have hcopy := capRange_copy_ok (numPages R.size_bits) R.start_cptr
    destOffset copyStatuses hcs
  have hmp := mapPages_ok (numPages R.size_bits) s destOffset 0 out
    (fun i hi => by rw [Nat.zero_add]; exact hout i hi)
  refine ⟨⟨destOffset, s.next_addr, s.asid, R.size_bits, true⟩,
    ⟨s.next_addr + numPages R.size_bits * PageBits, s.asid,
      s.mapped ++
        mappingsFrom destOffset 0 (numPages R.size_bits) s.next_addr
          s.asid⟩, ?_, rfl, rfl, rfl, rfl, rfl, ?_⟩
  · simp only [map_shared_region, hcopy, map_region_internal, hmp]
  · intro p hp
    simp only [List.mem_append] at hp
    rcases hp with hp | hp
    · exact Or.inl hp
    · right
      have := mappingsFrom_mem (numPages R.size_bits) destOffset 0
        s.next_addr s.asid p hp
      omega

/-- Witness for C8: a 2-page Shared region whose caps start at cptr 50,
copied into slots starting at 900 and mapped, with all kernel calls
succeeding. -/
theorem c8_witness :
    ∃ (m : MappedMemoryRegion) (s' : VSpaceState),
      map_shared_region ⟨0, 7, []⟩ ⟨50, 13, true⟩ 900 (fun _ => 0)
          (fun _ => .ok ()) = (.ok m, s') ∧
      m.shared = true ∧ m.initial_cptr = 900 ∧ m.size_bits = 13 ∧
      m.vaddr = 0 ∧
      s'.mapped = [] ++ mappingsFrom 900 0 (numPages 13) 0 7 ∧
      (∀ p ∈ s'.mapped, p ∈ ([] : List PageMapping) ∨
        (900 ≤ p.cptr ∧ p.cptr < 900 + numPages 13)) :=
  c8_map_shared_region_maps_only_copies ⟨0, 7, []⟩ ⟨50, 13, true⟩ 900
    (fun _ => 0) (fun _ => .ok ()) (fun _ _ => rfl) (fun _ _ => rfl)

/-- **C9**: if mapping the `k`-th page of a `K`-page region fails
(`1 ≤ k ≤ K`), `map_region_internal` returns the converted error with the
first `k−1` pages still present in the kernel's mapped ledger and the
cursor still advanced by those `k−1` successful mappings — no rollback or
unmapping happens on the error path. -/
theorem c9_map_region_no_rollback_on_partial_failure (s : VSpaceState)
    (R : UnmappedMemoryRegion) (sharedOut : Bool)
    (out : Nat → Except MappingError Unit) (k : Nat) (e : MappingError)
    (hk1 : 1 ≤ k) (hk : k ≤ numPages R.size_bits)
    (hout : ∀ i, i < k - 1 → out i = .ok ())
    (hfail : out (k - 1) = .error e) :
    map_region_internal s R sharedOut out =
      (.error (vspaceErrorOf e),
        ⟨s.next_addr + (k - 1) * PageBits, s.asid,
          s.mapped ++
            mappingsFrom R.start_cptr 0 (k - 1) s.next_addr s.asid⟩) := by
  have hmf := mapPages_fail (k - 1) (numPages R.size_bits) s R.start_cptr 0
    out e (by omega) (fun i hi => by rw [Nat.zero_add]; exact hout i hi)
    (by rw [Nat.zero_add]; exact hfail)
  simp only [map_region_internal, hmf]

/-- Witness for C9: a 4-page region whose third page map fails with a
kernel error; the first two pages stay mapped, the cursor stays advanced
by two pages. -/
theorem c9_witness :
    map_region_internal ⟨0, 7, []⟩ ⟨50, 14, false⟩ false
        (fun i => if i = 2 then .error (.PageMapFailure 5) else .ok ()) =
      (.error (.SeL4Error 5),
        ⟨2 * PageBits, 7, [⟨50, 0, 7⟩, ⟨51, PageBits, 7⟩]⟩) :=
  c9_map_region_no_rollback_on_partial_failure ⟨0, 7, []⟩ ⟨50, 14, false⟩
    false (fun i => if i = 2 then .error (.PageMapFailure 5) else .ok ())
    3 (.PageMapFailure 5) (by decide) (by decide)
    (fun i hi => by
      have h : i = 0 ∨ i = 1 := by omega
      rcases h with rfl | rfl <;> rfl)
    rfl

end Ferros
